import Mathlib

/-!
Shallow embedding of two ScummVM fragments:
  * `engines/ultima/ultima8/audio/audio_channel.h` — the `AudioChannel`
    mixer-channel wrapper (cached volume / priority / pause scalars);
  * `engines/toon/movie.cpp` — the Toonstruck movie playback driver
    (`ToonstruckSmackerDecoder` hooks and `Movie::play` / `Movie::playVideo`).

Host-owned facilities (the mixer, the base Smacker decoder, the OSystem
screen) are modelled as explicit inputs and as traces of the calls the
fragments issue to them.  Machine integers are modelled as `Int` / `Nat`;
the C `/` on `int` is `Int.tdiv` (truncation toward zero).
-/

namespace Ultima8

/-- A call issued to the host mixer (`Audio::Mixer`) on the channel's
sound handle. -/
inductive MixerCall where
  | setChannelVolume (v : Int)
  | setChannelBalance (b : Int)
  deriving DecidableEq

/-- The cached scalars of `AudioChannel` (`_lVol`, `_rVol`, `_priority`,
`_paused`).  The host mixer and sound handle are not part of the cached
state; calls to them are recorded as a `MixerCall` trace. -/
structure AudioChannel where
  lVol : Int
  rVol : Int
  priority : Int
  paused : Bool
  deriving DecidableEq

/-- `AudioChannel::setVolume(lvol, rvol)`: caches both scalars and forwards
`(rvol + lvol) / 2` as channel volume and `(rvol - lvol) / 2` as channel
balance to the mixer, with C truncating division. -/
def setVolume (ch : AudioChannel) (lvol rvol : Int) : AudioChannel × List MixerCall :=
  ({ ch with lVol := lvol, rVol := rvol },
   [MixerCall.setChannelVolume (Int.tdiv (rvol + lvol) 2),
    MixerCall.setChannelBalance (Int.tdiv (rvol - lvol) 2)])

/-- `AudioChannel::getVolume`: returns the cached `_lVol`, `_rVol`;
issues no mixer call. -/
def getVolume (ch : AudioChannel) : Int × Int :=
  (ch.lVol, ch.rVol)

/-- `AudioChannel::setPriority`: caches the priority; issues no mixer call. -/
def setPriority (ch : AudioChannel) (priority : Int) : AudioChannel :=
  { ch with priority := priority }

/-- `AudioChannel::getPriority`: returns the cached `_priority`. -/
def getPriority (ch : AudioChannel) : Int :=
  ch.priority

/-- `AudioChannel::isPaused`: returns the cached `_paused`. -/
def isPaused (ch : AudioChannel) : Bool :=
  ch.paused

end Ultima8

namespace Toon

/-- The `ToonstruckSmackerDecoder` state visible to this fragment: the
`_lowRes` flag it manages and the video height reported by the base
decoder's `getHeight()`. -/
structure ToonstruckSmackerDecoder where
  lowRes : Bool
  height : Nat
  deriving DecidableEq

/-- Outcome of `ToonstruckSmackerDecoder::handleAudioTrack`: either the
chunk was consumed as a resolution record, or it was delegated (with its
arguments unchanged) to `Video::SmackerDecoder::handleAudioTrack`. -/
inductive TrackOutcome where
  | resolutionRecord
  | delegated (track : Nat) (chunkSize : Nat) (unpackedSize : Nat)
  deriving DecidableEq

/-- `ToonstruckSmackerDecoder::handleAudioTrack(track, chunkSize,
unpackedSize)`.  The file stream is modelled as the list of 16-bit
little-endian values the two `readUint16LE()` calls would return, in
order.  A chunk with `track == 1 && chunkSize == 4` is a resolution
record: the first value (width) is read and dropped, the second value is
the recorded height, and `_lowRes` becomes `height == getHeight() / 2`.
Any other chunk is delegated to the base handler unchanged. -/
def handleAudioTrack (st : ToonstruckSmackerDecoder) (track chunkSize unpackedSize : Nat)
    (stream : List Nat) : ToonstruckSmackerDecoder × List Nat × TrackOutcome :=
  if track == 1 && chunkSize == 4 then
    let height := (stream.drop 1).headD 0
    ({ st with lowRes := height == st.height / 2 }, stream.drop 2, TrackOutcome.resolutionRecord)
  else
    (st, stream, TrackOutcome.delegated track chunkSize unpackedSize)

/-- `ToonstruckSmackerDecoder::ToonstruckSmackerDecoder()`: the
constructor clears `_lowRes`; the base decoder reports the given
height. -/
def mkDecoder (height : Nat) : ToonstruckSmackerDecoder :=
  { lowRes := false, height := height }

/-- `ToonstruckSmackerDecoder::loadStream`.  `baseOk` is whether
`Video::SmackerDecoder::loadStream` succeeds on the stream, and
`baseHeight` is the height the base loader establishes on success.  On
base failure the method returns `false` without touching the state; on
success it clears `_lowRes` and returns `true`. -/
def loadStream (st : ToonstruckSmackerDecoder) (baseOk : Bool) (baseHeight : Nat) :
    Bool × ToonstruckSmackerDecoder :=
  if baseOk then (true, { lowRes := false, height := baseHeight })
  else (false, st)

/-- A decoded frame (`Graphics::Surface`): width `w`, height `h`, row
pitch `pitch`, and the pixel bytes as a function from the linear index
(`i < w * h`, row-major) to the palette byte stored there. -/
structure Frame where
  w : Nat
  h : Nat
  pitch : Nat
  pixels : Nat → Nat

/-- One call `Movie::playVideo` issues to the host display services.
`lockedRowCopy d s` is one `memcpy` of `frame->pitch` bytes from frame
row `s` to row `d` of the locked screen; `copyRect sx sy dx dy w h` is
`copyRectToScreen(frame->getBasePtr(sx, sy), frame->pitch, dx, dy, w, h)`
(with `sx = sy = 0` and the full frame size for the plain blit);
`render cf key` is `_subtitle->render(*frame, cf, key)`;
`setFullPalette` is `setPalette(_decoder->getPalette(), 0, 256)`;
`setPaletteEntry i` is the single-entry write of the yellow subtitle
color `{0xff, 0xff, 0x00}` at palette index `i`; `update` is
`updateScreen()`. -/
inductive ScreenOp where
  | lockedRowCopy (destRow : Nat) (srcRow : Nat)
  | copyRect (srcX srcY destX destY : Nat) (width : Nat) (height : Nat)
  | render (curFrame : Int) (colorKey : Nat)
  | setFullPalette
  | setPaletteEntry (index : Nat)
  | update
  deriving DecidableEq

/-- `counts[j]` after the pixel scan of `Movie::playVideo`: whether the
byte `j` occurs among the frame's `w * h` pixel bytes. -/
def occursIn (f : Frame) (j : Nat) : Bool :=
  (List.range (f.w * f.h)).any fun i => f.pixels i == j

/-- The color-key search of `Movie::playVideo`: `unused` starts at 0 and
the loop `for (j = 1; j < 256; j++)` stores the first `j` whose count is
unset and breaks; if every `j` in 1..255 occurs, `unused` stays 0. -/
def findUnused (f : Frame) : Nat :=
  match (List.range' 1 255).find? (fun j => !occursIn f j) with
  | some j => j
  | none => 0

/-- The value of `unused` for one decoded frame: it stays at its initial
0 when no frame was decoded or the frame is low-res, and is the
color-key search result otherwise. -/
def frameColorKey (lowRes : Bool) (frame : Option Frame) : Nat :=
  match frame with
  | none => 0
  | some f => if lowRes then 0 else findUnused f

/-- The row-doubling loop of `Movie::playVideo` for a low-res frame:
`for (y = 0; y < frame->h / 2; y++)` copies frame row `y` to screen rows
`y * 2` and `y * 2 + 1` inside the locked screen. -/
def scaleUpOps (h : Nat) : List ScreenOp :=
  (List.range (h / 2)).flatMap fun y =>
    [ScreenOp.lockedRowCopy (y * 2) y, ScreenOp.lockedRowCopy (y * 2 + 1) y]

/-- The four `copyRectToScreen` calls of the hardcoded workaround for the
encoding glitch in the first intro video. -/
def workaroundOps (f : Frame) : List ScreenOp :=
  [ScreenOp.copyRect (f.w - 188) 123 (f.w - 188) 124 188 1,
   ScreenOp.copyRect (f.w - 188) 126 (f.w - 188) 125 188 1,
   ScreenOp.copyRect 0 125 0 126 64 1,
   ScreenOp.copyRect 0 128 0 127 64 1]

/-- The display calls of one `needsUpdate` iteration of the
`Movie::playVideo` loop, after `decodeNextFrame` returned `frame` and
`getCurFrame()` is `curFrame`, for a decoder reporting `lowRes`.  A
low-res frame is scaled up row by row; otherwise the frame is blitted,
the color-key search runs, the subtitle renderer is called with the key,
and for the first intro video with `956 <= curFrame <= 1038` the
workaround patch is applied.  Then the full 256-entry decoder palette is
installed, the yellow subtitle entry is written only when `unused` is
nonzero, and the screen is updated. -/
def processFrame (isFirstIntroVideo : Bool) (lowRes : Bool) (frame : Option Frame)
    (curFrame : Int) : List ScreenOp :=
  let body : List ScreenOp :=
    match frame with
    | none => []
    | some f =>
      if lowRes then
        scaleUpOps f.h
      else
        [ScreenOp.copyRect 0 0 0 0 f.w f.h, ScreenOp.render curFrame (findUnused f)] ++
        (if isFirstIntroVideo && (956 ≤ curFrame && curFrame ≤ 1038) then workaroundOps f
         else [])
  body ++ [ScreenOp.setFullPalette] ++
    (if frameColorKey lowRes frame ≠ 0 then [ScreenOp.setPaletteEntry (frameColorKey lowRes frame)]
     else []) ++
    [ScreenOp.update]

/-- `Movie::play` sets `isFirstIntroVideo` exactly for the video path
`"209_1M.SMK"`. -/
def isFirstIntroVideoOf (video : String) : Bool :=
  video == "209_1M.SMK"

/-- The `Movie` driver's owned sub-objects: `_decoder` (the
`ToonstruckSmackerDecoder` handed to the constructor) and `_subtitle`
(the `SubtitleRenderer` the constructor allocates), identified here by
abstract handles. -/
structure Movie where
  decoder : Nat
  subtitle : Nat
  deriving DecidableEq

/-- `Movie::~Movie()`: the destructor deletes `_decoder` and `_subtitle`;
the result lists the handles it frees. -/
def Movie.destructorFrees (m : Movie) : List Nat :=
  [m.decoder, m.subtitle]

/-- One call `Movie::play` issues to the host / its sub-objects. -/
inductive PlayEffect where
  | setMusicVolume (v : Nat)
  | loadFile
  | loadSubtitles
  | playVideoCall (isFirstIntroVideo : Bool)
  | flushPalette
  | closeDecoder
  deriving DecidableEq

/-- How a call to `Movie::play` ends: a normal return (recording the
value of `_playing` at that point), or the fatal `error(...)` host call,
which never returns. -/
inductive PlayOutcome where
  | returned (playing : Bool)
  | fatalError
  deriving DecidableEq

/-- The host-dependent inputs of `Movie::play`: whether
`_decoder->loadFile(video)` succeeds, and what
`getAudioManager()->isMusicMuted()` returns. -/
structure PlayEnv where
  loadOk : Bool
  musicMuted : Bool
  deriving DecidableEq

/-- `Movie::play(video, flags)`: sets `_playing` to true, zeroes the
music volume when bit 0 of `flags` is set, then loads the video file.
On load failure it returns immediately when bit 1 of `flags` is set and
calls the fatal `error(...)` otherwise.  On success it loads the
subtitles, plays the video, flushes the palette, restores the music
volume (to 0 when muted, else 255) when bit 0 is set, closes the
decoder and clears `_playing`. -/
def play (video : String) (flags : Nat) (env : PlayEnv) : PlayOutcome × List PlayEffect :=
  let pre : List PlayEffect :=
    (if flags &&& 1 ≠ 0 then [PlayEffect.setMusicVolume 0] else []) ++ [PlayEffect.loadFile]
  if env.loadOk then
    (PlayOutcome.returned false,
     pre ++ [PlayEffect.loadSubtitles, PlayEffect.playVideoCall (isFirstIntroVideoOf video),
             PlayEffect.flushPalette] ++
       (if flags &&& 1 ≠ 0 then [PlayEffect.setMusicVolume (if env.musicMuted then 0 else 255)]
        else []) ++
       [PlayEffect.closeDecoder])
  else if flags &&& 2 ≠ 0 then
    (PlayOutcome.returned true, pre)
  else
    (PlayOutcome.fatalError, pre)

/-- A concrete 2x2 frame whose pixels are all the byte 7, used to
evaluate the per-frame operations on a small input. -/
def sampleFrame : Frame :=
  { w := 2, h := 2, pitch := 2, pixels := fun _ => 7 }

end Toon

/-- `List.find?` on `List.range' s n` returns the least element of the
range satisfying the predicate: the found value satisfies `p`, lies in
the range, and every smaller range element fails `p`. -/
theorem find?_range'_eq_some (p : Nat → Bool) (s n j : Nat)
    (h : (List.range' s n).find? p = some j) :
    p j = true ∧ s ≤ j ∧ j < s + n ∧ ∀ k, s ≤ k → k < j → p k = false := by
  induction n generalizing s with
  | zero => simp at h
  | succ n ih =>
    rw [List.range'_succ] at h
    by_cases hs : p s = true
    · rw [List.find?_cons_of_pos _ hs] at h
      cases h
      exact ⟨hs, Nat.le_refl _, by omega, fun k h1 h2 => by omega⟩
    · rw [List.find?_cons_of_neg _ hs] at h
      obtain ⟨hp, h1, h2, h3⟩ := ih (s + 1) h
      simp only [Bool.not_eq_true] at hs
      refine ⟨hp, by omega, by omega, fun k hk1 hk2 => ?_⟩
      rcases Nat.eq_or_lt_of_le hk1 with heq | hk
      · exact heq ▸ hs
      · exact h3 k hk hk2

/-- Membership of a locked-screen row copy in the row-doubling trace. -/
theorem lockedRowCopy_mem_scaleUpOps (h d s : Nat) :
    Toon.ScreenOp.lockedRowCopy d s ∈ Toon.scaleUpOps h ↔
      s < h / 2 ∧ (d = s * 2 ∨ d = s * 2 + 1) := by
  simp only [Toon.scaleUpOps, List.mem_flatMap, List.mem_range, List.mem_cons,
    List.mem_singleton, Toon.ScreenOp.lockedRowCopy.injEq, List.not_mem_nil, or_false]
  constructor
  · rintro ⟨y, hy, ⟨rfl, rfl⟩ | ⟨rfl, rfl⟩⟩
    · exact ⟨hy, Or.inl rfl⟩
    · exact ⟨hy, Or.inr rfl⟩
  · rintro ⟨hs, rfl | rfl⟩
    · exact ⟨s, hs, Or.inl ⟨rfl, rfl⟩⟩
    · exact ⟨s, hs, Or.inr ⟨rfl, rfl⟩⟩

/-- Every operation in the row-doubling trace is a locked-screen row
copy. -/
theorem mem_scaleUpOps_shape (h : Nat) (op : Toon.ScreenOp) (hm : op ∈ Toon.scaleUpOps h) :
    ∃ d s, op = Toon.ScreenOp.lockedRowCopy d s := by
  simp only [Toon.scaleUpOps, List.mem_flatMap, List.mem_range, List.mem_cons,
    List.mem_singleton, List.not_mem_nil, or_false] at hm
  obtain ⟨y, _, rfl | rfl⟩ := hm
  · exact ⟨y * 2, y, rfl⟩
  · exact ⟨y * 2 + 1, y, rfl⟩

/-- C4: `AudioChannel` caches its volume, priority and pause scalars:
`getVolume` after `setVolume(l, r)` returns exactly `(l, r)`,
`getPriority` after `setPriority(p)` returns exactly `p`, and `isPaused`
returns the cached `_paused` flag; the getters are pure functions of the
cached channel state and issue no mixer call. -/
theorem audioChannel_caches_scalars (ch : Ultima8.AudioChannel) (l r p : Int) :
    Ultima8.getVolume (Ultima8.setVolume ch l r).1 = (l, r) ∧
    Ultima8.getPriority (Ultima8.setPriority ch p) = p ∧
    Ultima8.isPaused ch = ch.paused :=
  ⟨rfl, rfl, rfl⟩

/-- C5: `AudioChannel::setVolume(l, r)` forwards exactly two mixer
calls: the channel volume `(r + l) / 2` and the channel balance
`(r - l) / 2`, where `/` is C truncating integer division — the
magnitude is divided and the sign kept, i.e. `Int.tdiv`. -/
theorem setVolume_forwards_truncated_halves (ch : Ultima8.AudioChannel) (l r : Int) :
    (Ultima8.setVolume ch l r).2 =
      [Ultima8.MixerCall.setChannelVolume (Int.tdiv (r + l) 2),
       Ultima8.MixerCall.setChannelBalance (Int.tdiv (r - l) 2)] ∧
    ∀ a : Int, Int.tdiv a 2 = if 0 ≤ a then ((a.natAbs / 2 : Nat) : Int)
      else -((a.natAbs / 2 : Nat) : Int) := by
  refine ⟨rfl, fun a => ?_⟩
  cases a with
  | ofNat m => simp [Int.tdiv, Int.natAbs]
  | negSucc m =>
    have : ¬(0 : Int) ≤ Int.negSucc m := by
      simp [Int.negSucc_eq]
      omega
    simp [Int.tdiv, Int.natAbs, this]

/-- C6: `ToonstruckSmackerDecoder::handleAudioTrack` treats a chunk with
`track == 1 && chunkSize == 4` as a resolution record: it consumes two
16-bit little-endian values from the stream and sets `_lowRes` to true
exactly when the second value equals `getHeight() / 2`; every other
chunk is delegated unchanged to the base Smacker handler, leaving state
and stream untouched. -/
theorem handleAudioTrack_resolution_or_delegate (st : Toon.ToonstruckSmackerDecoder)
    (track chunkSize unpackedSize : Nat) (stream : List Nat) :
    (track = 1 ∧ chunkSize = 4 →
      Toon.handleAudioTrack st track chunkSize unpackedSize stream =
        ({ st with lowRes := (stream.drop 1).headD 0 == st.height / 2 },
         stream.drop 2, Toon.TrackOutcome.resolutionRecord) ∧
      ((Toon.handleAudioTrack st track chunkSize unpackedSize stream).1.lowRes = true ↔
        (stream.drop 1).headD 0 = st.height / 2)) ∧
    (¬(track = 1 ∧ chunkSize = 4) →
      Toon.handleAudioTrack st track chunkSize unpackedSize stream =
        (st, stream, Toon.TrackOutcome.delegated track chunkSize unpackedSize)) := by
  constructor
  · rintro ⟨rfl, rfl⟩
    refine ⟨rfl, ?_⟩
    simp [Toon.handleAudioTrack]
  · intro hne
    have : (track == 1 && chunkSize == 4) = false := by
      rcases eq_or_ne track 1 with rfl | ht
      · rcases eq_or_ne chunkSize 4 with rfl | hc
        · exact absurd ⟨rfl, rfl⟩ hne
        · simp [hc]
      · simp [ht]
    simp [Toon.handleAudioTrack, this]

/-- C6 witness: a resolution chunk (`track = 1`, `chunkSize = 4`) on a
200-line video with recorded height 100 sets the low-res flag. -/
theorem handleAudioTrack_resolution_witness :
    ((1 : Nat) = 1 ∧ (4 : Nat) = 4) ∧
    ((Toon.handleAudioTrack ⟨false, 200⟩ 1 4 9 [320, 100]).1.lowRes = true ↔
      (([320, 100] : List Nat).drop 1).headD 0 = (200 : Nat) / 2) :=
  ⟨⟨rfl, rfl⟩,
   ((handleAudioTrack_resolution_or_delegate ⟨false, 200⟩ 1 4 9 [320, 100]).1 ⟨rfl, rfl⟩).2⟩

/-- C7: the `Movie` driver owns exactly one decoder and one subtitle
renderer, and its destructor frees exactly that pair: the freed handles
are `_decoder` and `_subtitle` and nothing else. -/
theorem movie_destructor_frees_pair (m : Toon.Movie) (x : Nat) :
    m.destructorFrees = [m.decoder, m.subtitle] ∧
    (x ∈ m.destructorFrees ↔ x = m.decoder ∨ x = m.subtitle) := by
  refine ⟨rfl, ?_⟩
  simp [Toon.Movie.destructorFrees]

/-- C10: `ToonstruckSmackerDecoder::loadStream` returns false exactly
when the base Smacker loader fails, and whenever it returns true the
low-res flag has been reset to false (as the constructor also leaves
it). -/
theorem loadStream_iff_base_and_resets (st : Toon.ToonstruckSmackerDecoder)
    (baseOk : Bool) (baseHeight : Nat) :
    (Toon.loadStream st baseOk baseHeight).1 = baseOk ∧
    ((Toon.loadStream st baseOk baseHeight).1 = true →
      (Toon.loadStream st baseOk baseHeight).2.lowRes = false) ∧
    (Toon.mkDecoder baseHeight).lowRes = false := by
  cases baseOk <;> simp [Toon.loadStream, Toon.mkDecoder]

/-- C10 witness: a successful load on a decoder whose low-res flag was
set leaves the flag cleared. -/
theorem loadStream_iff_base_and_resets_witness :
    (Toon.loadStream ⟨true, 100⟩ true 200).1 = true ∧
    (Toon.loadStream ⟨true, 100⟩ true 200).2.lowRes = false :=
  ⟨(loadStream_iff_base_and_resets ⟨true, 100⟩ true 200).1,
   (loadStream_iff_base_and_resets ⟨true, 100⟩ true 200).2.1 rfl⟩

/-- C2: for a decoded low-res frame, the 2x row-doubling scale-up copies
frame row `y` to the locked screen rows `2y` and `2y + 1` exactly for
`0 <= y < h / 2` (truncating division), and this path writes no other
screen rows: apart from the row copies it only installs the palette and
updates the screen. -/
theorem lowRes_row_doubling (f : Toon.Frame) (cf : Int) (intro : Bool) :
    (∀ d s : Nat,
      Toon.ScreenOp.lockedRowCopy d s ∈ Toon.processFrame intro true (some f) cf ↔
        s < f.h / 2 ∧ (d = s * 2 ∨ d = s * 2 + 1)) ∧
    (∀ op ∈ Toon.processFrame intro true (some f) cf,
      (∃ d s, op = Toon.ScreenOp.lockedRowCopy d s) ∨ op = Toon.ScreenOp.setFullPalette ∨
        op = Toon.ScreenOp.update) := by
  have htr : Toon.processFrame intro true (some f) cf =
      Toon.scaleUpOps f.h ++ [Toon.ScreenOp.setFullPalette, Toon.ScreenOp.update] := by
    simp [Toon.processFrame, Toon.frameColorKey]
  constructor
  · intro d s
    rw [htr]
    simp [List.mem_append, lockedRowCopy_mem_scaleUpOps]
  · intro op hop
    rw [htr] at hop
    rcases List.mem_append.mp hop with h1 | h2
    · exact Or.inl (mem_scaleUpOps_shape f.h op h1)
    · simp only [List.mem_cons, List.mem_singleton, List.not_mem_nil, or_false] at h2
      rcases h2 with rfl | rfl
      · exact Or.inr (Or.inl rfl)
      · exact Or.inr (Or.inr rfl)

/-- C2 witness: on the concrete 2x2 low-res frame, frame row 0 is copied
to screen row 0 (and the theorem's characterization applies at
`d = 0`, `s = 0`). -/
theorem lowRes_row_doubling_witness :
    Toon.ScreenOp.lockedRowCopy 0 0 ∈ Toon.processFrame false true (some Toon.sampleFrame) 0 :=
  ((lowRes_row_doubling Toon.sampleFrame 0 false).1 0 0).mpr (by decide)

/-- C1: for a decoded non-low-res frame in which some palette index
1..255 is missing, the color-key search sets `unused` to the smallest
index `j` with `1 <= j <= 255` occurring in none of the frame's
`w * h` pixel bytes — in particular index 0 is never chosen, whether or
not 0 occurs in the frame — and that key is passed to the subtitle
renderer for the frame. -/
theorem colorKey_least_unused (f : Toon.Frame) (cf : Int) (intro : Bool)
    (hex : ∃ j, 1 ≤ j ∧ j ≤ 255 ∧ Toon.occursIn f j = false) :
    1 ≤ Toon.findUnused f ∧ Toon.findUnused f ≤ 255 ∧
    Toon.occursIn f (Toon.findUnused f) = false ∧
    (∀ k, 1 ≤ k → k < Toon.findUnused f → Toon.occursIn f k = true) ∧
    Toon.ScreenOp.render cf (Toon.findUnused f) ∈
      Toon.processFrame intro false (some f) cf := by
  obtain ⟨j0, hj1, hj2, hj3⟩ := hex
  have hmem : j0 ∈ List.range' 1 255 := by
    rw [List.mem_range'_1]
    omega
  have hfind : (List.range' 1 255).find? (fun j => !Toon.occursIn f j) ≠ none := by
    intro hnone
    rw [List.find?_eq_none] at hnone
    have := hnone j0 hmem
    simp [hj3] at this
  obtain ⟨j, hj⟩ := Option.ne_none_iff_exists'.mp hfind
  obtain ⟨hp, hge, hlt, hmin⟩ := find?_range'_eq_some _ _ _ _ hj
  have hval : Toon.findUnused f = j := by
    simp [Toon.findUnused, hj]
  simp only [Bool.not_eq_true'] at hp
  rw [hval]
  refine ⟨hge, by omega, hp, fun k hk1 hk2 => ?_, ?_⟩
  · have := hmin k hk1 hk2
    simpa using this
  · simp [Toon.processFrame, hval]

/-- C1 witness: on the concrete frame whose pixels are all 7, the
missing index 1 exists, the search picks 1, and the render call carries
it. -/
theorem colorKey_least_unused_witness :
    (∃ j, 1 ≤ j ∧ j ≤ 255 ∧ Toon.occursIn Toon.sampleFrame j = false) ∧
    (1 ≤ Toon.findUnused Toon.sampleFrame ∧ Toon.findUnused Toon.sampleFrame ≤ 255 ∧
     Toon.occursIn Toon.sampleFrame (Toon.findUnused Toon.sampleFrame) = false ∧
     (∀ k, 1 ≤ k → k < Toon.findUnused Toon.sampleFrame →
       Toon.occursIn Toon.sampleFrame k = true) ∧
     Toon.ScreenOp.render 0 (Toon.findUnused Toon.sampleFrame) ∈
       Toon.processFrame false false (some Toon.sampleFrame) 0) :=
  ⟨⟨1, by decide⟩, colorKey_least_unused Toon.sampleFrame 0 false ⟨1, by decide⟩⟩

/-- The yellow subtitle palette entry is never written from the
row-doubling trace. -/
theorem setPaletteEntry_not_mem_scaleUpOps (h k : Nat) :
    Toon.ScreenOp.setPaletteEntry k ∉ Toon.scaleUpOps h := by
  intro hm
  obtain ⟨d, s, hds⟩ := mem_scaleUpOps_shape h _ hm
  exact absurd hds (by simp)

/-- The yellow subtitle palette entry is never among the workaround
blits. -/
theorem setPaletteEntry_not_mem_workaroundOps (f : Toon.Frame) (k : Nat) :
    Toon.ScreenOp.setPaletteEntry k ∉ Toon.workaroundOps f := by
  simp [Toon.workaroundOps]


/-- The single-entry subtitle palette write appears in the per-frame
trace exactly when the frame color key is nonzero, and then only at that
key. -/
theorem setPaletteEntry_mem_iff (intro lowRes : Bool) (frame : Option Toon.Frame)
    (cf : Int) (k : Nat) :
    Toon.ScreenOp.setPaletteEntry k ∈ Toon.processFrame intro lowRes frame cf ↔
      Toon.frameColorKey lowRes frame ≠ 0 ∧ k = Toon.frameColorKey lowRes frame := by
  cases frame with
  | none => simp [Toon.processFrame, Toon.frameColorKey]
  | some f =>
    cases lowRes with
    | true =>
      simp [Toon.processFrame, Toon.frameColorKey, setPaletteEntry_not_mem_scaleUpOps]
    | false =>
      by_cases h0 : Toon.findUnused f = 0 <;>
        simp [Toon.processFrame, Toon.frameColorKey, h0, Toon.workaroundOps]

/-- C9: when every palette index 1..255 occurs in the frame, or the
frame is low-res, the color key stays at its initial 0; the full
256-entry decoder palette is still installed, but no palette entry is
overwritten with the yellow subtitle color.  The single-entry subtitle
write happens only for a nonzero color key, and only at that key. -/
theorem colorKey_zero_guard (intro lowRes : Bool) (f : Toon.Frame) (cf : Int) :
    ((lowRes = true ∨ ∀ j, 1 ≤ j → j ≤ 255 → Toon.occursIn f j = true) →
      Toon.frameColorKey lowRes (some f) = 0 ∧
      Toon.ScreenOp.setFullPalette ∈ Toon.processFrame intro lowRes (some f) cf ∧
      ∀ k, Toon.ScreenOp.setPaletteEntry k ∉ Toon.processFrame intro lowRes (some f) cf) ∧
    (∀ k, Toon.ScreenOp.setPaletteEntry k ∈ Toon.processFrame intro lowRes (some f) cf →
      k ≠ 0 ∧ k = Toon.frameColorKey lowRes (some f)) := by
  constructor
  · intro hyp
    have hkey : Toon.frameColorKey lowRes (some f) = 0 := by
      rcases hyp with h | h
      · simp [Toon.frameColorKey, h]
      · have hnone : (List.range' 1 255).find? (fun j => !Toon.occursIn f j) = none := by
          rw [List.find?_eq_none]
          intro x hx
          rw [List.mem_range'_1] at hx
          simp [h x hx.1 (by omega)]
        cases lowRes
        · simp [Toon.frameColorKey, Toon.findUnused, hnone]
        · simp [Toon.frameColorKey]
    refine ⟨hkey, ?_, fun k hk => ?_⟩
    · simp [Toon.processFrame]
    · rw [setPaletteEntry_mem_iff] at hk
      exact absurd hkey hk.1
  · intro k hk
    rw [setPaletteEntry_mem_iff] at hk
    obtain ⟨hne, rfl⟩ := hk
    exact ⟨hne, rfl⟩

/-- C9 witness: on a low-res frame the color key is 0, the full palette
is installed and no subtitle palette entry is written. -/
theorem colorKey_zero_guard_witness :
    Toon.frameColorKey true (some Toon.sampleFrame) = 0 ∧
    Toon.ScreenOp.setFullPalette ∈ Toon.processFrame false true (some Toon.sampleFrame) 0 ∧
    ∀ k, Toon.ScreenOp.setPaletteEntry k ∉ Toon.processFrame false true (some Toon.sampleFrame) 0 :=
  (colorKey_zero_guard false true Toon.sampleFrame 0).1 (Or.inl rfl)

/-- C3 counterexample: for a low-res decoded frame of "209_1M.SMK" at
frame number 1000 the claimed equivalence fails — the video name and
frame-number condition holds, yet the workaround blits are not issued,
because the low-res path never reaches the workaround. -/
theorem workaround_claim_counterexample :
    ¬ ((∀ op ∈ Toon.workaroundOps Toon.sampleFrame,
          op ∈ Toon.processFrame (Toon.isFirstIntroVideoOf "209_1M.SMK") true
            (some Toon.sampleFrame) 1000) ↔
        ("209_1M.SMK" = "209_1M.SMK" ∧ (956 : Int) ≤ 1000 ∧ (1000 : Int) ≤ 1038)) := by
  decide

/-- C3 (amended): for a decoded, non-low-res frame, the workaround is
applied if and only if the video is "209_1M.SMK" and the current frame
number is between 956 and 1038 inclusive; when applied it overwrites,
on screen, row 124 with frame row 123 and row 125 with frame row 126
over the rightmost 188 pixels, and row 126 with frame row 125 and row
127 with frame row 128 over the leftmost 64 pixels.  It is never
applied on a low-res frame or when no frame was decoded. -/
theorem workaround_iff_full (v : String) (f : Toon.Frame) (cf : Int) (b lr : Bool) :
    Toon.workaroundOps f =
      [Toon.ScreenOp.copyRect (f.w - 188) 123 (f.w - 188) 124 188 1,
       Toon.ScreenOp.copyRect (f.w - 188) 126 (f.w - 188) 125 188 1,
       Toon.ScreenOp.copyRect 0 125 0 126 64 1,
       Toon.ScreenOp.copyRect 0 128 0 127 64 1] ∧
    ((∀ op ∈ Toon.workaroundOps f,
        op ∈ Toon.processFrame (Toon.isFirstIntroVideoOf v) false (some f) cf) ↔
      (v = "209_1M.SMK" ∧ 956 ≤ cf ∧ cf ≤ 1038)) ∧
    ¬ (∀ op ∈ Toon.workaroundOps f, op ∈ Toon.processFrame b true (some f) cf) ∧
    ¬ (∀ op ∈ Toon.workaroundOps f, op ∈ Toon.processFrame b lr none cf) := by
  refine ⟨rfl, ?_, ?_, ?_⟩
  · constructor
    · intro h
      have hmarker := h (Toon.ScreenOp.copyRect (f.w - 188) 123 (f.w - 188) 124 188 1)
        (by simp [Toon.workaroundOps])
      by_cases hc : (Toon.isFirstIntroVideoOf v &&
          (decide (956 ≤ cf) && decide (cf ≤ 1038))) = true
      · simp [Toon.isFirstIntroVideoOf] at hc
        exact hc
      · simp only [Bool.not_eq_true] at hc
        simp [Toon.processFrame, hc] at hmarker
    · rintro ⟨rfl, h1, h2⟩
      intro op hop
      have hc : (Toon.isFirstIntroVideoOf "209_1M.SMK" &&
          (decide (956 ≤ cf) && decide (cf ≤ 1038))) = true := by
        simp [Toon.isFirstIntroVideoOf, h1, h2]
      simp [Toon.processFrame, hc, List.mem_append, hop]
  · intro h
    have hmarker := h (Toon.ScreenOp.copyRect (f.w - 188) 123 (f.w - 188) 124 188 1)
      (by simp [Toon.workaroundOps])
    have htr : Toon.processFrame b true (some f) cf =
        Toon.scaleUpOps f.h ++ [Toon.ScreenOp.setFullPalette, Toon.ScreenOp.update] := by
      simp [Toon.processFrame, Toon.frameColorKey]
    rw [htr] at hmarker
    rcases List.mem_append.mp hmarker with h1 | h1
    · obtain ⟨d, s, hds⟩ := mem_scaleUpOps_shape _ _ h1
      exact absurd hds (by simp)
    · simp at h1
  · intro h
    have hmarker := h (Toon.ScreenOp.copyRect (f.w - 188) 123 (f.w - 188) 124 188 1)
      (by simp [Toon.workaroundOps])
    simp [Toon.processFrame, Toon.frameColorKey] at hmarker

/-- C3 witness: on the concrete frame at frame number 1000 of
"209_1M.SMK", the amended equivalence applies and yields the first
workaround blit in the trace. -/
theorem workaround_iff_full_witness :
    Toon.ScreenOp.copyRect (Toon.sampleFrame.w - 188) 123 (Toon.sampleFrame.w - 188) 124 188 1 ∈
      Toon.processFrame (Toon.isFirstIntroVideoOf "209_1M.SMK") false (some Toon.sampleFrame) 1000 :=
  (workaround_iff_full "209_1M.SMK" Toon.sampleFrame 1000 false false).2.1.mpr
    ⟨rfl, by decide, by decide⟩ _ (by simp [Toon.workaroundOps])

/-- C8: when loading the video fails and bit 1 of `flags` is set,
`Movie::play` returns early with `_playing` still true, without loading
subtitles, without closing the decoder, and without any nonzero
music-volume write (so the volume that bit 0 may have zeroed is not
restored); in every other call that returns, `_playing` is false on
return. -/
theorem play_early_return_keeps_playing (video : String) (flags : Nat) (env : Toon.PlayEnv) :
    (env.loadOk = false → flags &&& 2 ≠ 0 →
      (Toon.play video flags env).1 = Toon.PlayOutcome.returned true ∧
      Toon.PlayEffect.loadSubtitles ∉ (Toon.play video flags env).2 ∧
      Toon.PlayEffect.closeDecoder ∉ (Toon.play video flags env).2 ∧
      ∀ v, Toon.PlayEffect.setMusicVolume v ∈ (Toon.play video flags env).2 → v = 0) ∧
    (∀ p, (Toon.play video flags env).1 = Toon.PlayOutcome.returned p →
      p = false ∨ (env.loadOk = false ∧ flags &&& 2 ≠ 0 ∧ p = true)) := by
  constructor
  · intro hload hbit
    have htr : Toon.play video flags env =
        (Toon.PlayOutcome.returned true,
         (if flags &&& 1 ≠ 0 then [Toon.PlayEffect.setMusicVolume 0] else []) ++
           [Toon.PlayEffect.loadFile]) := by
      rw [Toon.play]
      simp [hload, hbit]
    rw [htr]
    refine ⟨rfl, ?_, ?_, ?_⟩
    · by_cases h1 : flags &&& 1 ≠ 0 <;> simp [h1]
    · by_cases h1 : flags &&& 1 ≠ 0 <;> simp [h1]
    · intro v hv
      by_cases h1 : flags &&& 1 ≠ 0 <;> simp [h1] at hv <;> omega
  · intro p hp
    rw [Toon.play] at hp
    by_cases hload : env.loadOk = true
    · simp only [hload, if_true] at hp
      cases hp
      exact Or.inl rfl
    · simp only [Bool.not_eq_true] at hload
      simp only [hload, Bool.false_eq_true, if_false] at hp
      by_cases hbit : flags &&& 2 ≠ 0
      · simp only [if_pos hbit] at hp
        cases hp
        exact Or.inr ⟨hload, hbit, rfl⟩
      · simp only [if_neg hbit] at hp
        cases hp

/-- C8 witness: with a failing load and `flags = 3` (both bits set),
`play` returns with `_playing` true, no subtitle load, no decoder
close, and only the volume-zeroing write in its trace. -/
theorem play_early_return_keeps_playing_witness :
    (Toon.PlayEnv.mk false false).loadOk = false ∧ (3 : Nat) &&& 2 ≠ 0 ∧
    ((Toon.play "ABC.SMK" 3 ⟨false, false⟩).1 = Toon.PlayOutcome.returned true ∧
     Toon.PlayEffect.loadSubtitles ∉ (Toon.play "ABC.SMK" 3 ⟨false, false⟩).2 ∧
     Toon.PlayEffect.closeDecoder ∉ (Toon.play "ABC.SMK" 3 ⟨false, false⟩).2 ∧
     ∀ v, Toon.PlayEffect.setMusicVolume v ∈ (Toon.play "ABC.SMK" 3 ⟨false, false⟩).2 → v = 0) :=
  ⟨rfl, by decide,
   (play_early_return_keeps_playing "ABC.SMK" 3 ⟨false, false⟩).1 rfl (by decide)⟩
